import Mathlib

/-!
# Verification of the virgo4 digital-content field-projection and record-assembly engine

Shallow embedding of the core request pipeline of the digital-content web
service: the Solr document model (`solrDocument`, tag lookup via
`getValuesByTag`), the field configuration (`serviceConfigField` and the
item/parts split), structural validation of parallel-array lengths
(`validateLoop`), the two-pass row assembly of `handleItemRequest`
(`assignIndexed`, `assignCustom`), the PDF status client wrapper
(`getPdfStatus`), and the JSON map-key ordering of the serialized output
(`sortPairs`, `jsonKeyOrder`).

Go maps are modelled as association lists whose assignment (`mapSet`)
replaces in place; Go's `encoding/json` emits map keys in sorted order,
modelled by `sortPairs`.  A Go panic (out-of-range index, failed type
assertion, nil-pointer dereference) is modelled by `Option`: `none` means
the handler faults.
-/

namespace Virgo4DigitalContent

/-! ## Solr document model (`solrDocument` in the source) -/

/-- The denormalized Solr record: the fixed struct, with each Go struct
field and its json tag.  The `score` field is a float; its formatted
rendering is irrelevant to every claim here. -/
structure solrDocument where
  alternateID : List String := []          -- json tag "alternate_id_a"
  id : String := ""                        -- json tag "id"
  individualCallNumber : List String := [] -- json tag "individual_call_number_a"
  pdfURL : List String := []               -- json tag "pdf_url_a"
  thumbnailURL : List String := []         -- json tag "thumbnail_url_a"
  urlIIIFManifest : String := ""           -- json tag "url_iiif_manifest_stored"
  rightsWrapperURL : List String := []     -- json tag "rights_wrapper_url_a"
  score : Float := 0.0                     -- json tag "score"

/-- The dynamic value `getFieldByTag` produces: the Go `interface{}`
holding a string field, a string-slice field, the float score, or `nil`
when no struct tag matches. -/
inductive solrFieldValue where
  | strVal (s : String)
  | arrVal (l : List String)
  | scoreVal (f : Float)
  | nilVal

/-- `solrDocument.getFieldByTag`: reflection walks the struct fields in
declaration order and returns the first whose json tag matches; tags are
distinct, so this is a direct match on the tag. -/
def getFieldByTag (d : solrDocument) (tag : String) : solrFieldValue :=
  match tag with
  | "alternate_id_a" => .arrVal d.alternateID
  | "id" => .strVal d.id
  | "individual_call_number_a" => .arrVal d.individualCallNumber
  | "pdf_url_a" => .arrVal d.pdfURL
  | "thumbnail_url_a" => .arrVal d.thumbnailURL
  | "url_iiif_manifest_stored" => .strVal d.urlIIIFManifest
  | "rights_wrapper_url_a" => .arrVal d.rightsWrapperURL
  | "score" => .scoreVal d.score
  | _ => .nilVal

/-- Abstracts Go's `fmt.Sprintf("%0.8f", t)` on the float score; no claim
depends on the rendering, only on it being some string. -/
def formatScore (f : Float) : String := f.toString

/-- `solrDocument.getValuesByTag`: turn any field value into a string
slice (string becomes a singleton, score becomes a formatted singleton,
no match becomes the empty slice). -/
def getValuesByTag (d : solrDocument) (tag : String) : List String :=
  match getFieldByTag d tag with
  | .arrVal t => t
  | .strVal t => [t]
  | .scoreVal t => [formatScore t]
  | .nilVal => []

/-- Modelled from the spec: the helper `firstElementOf` is code of this
repository that is not under `src/` (only its callers are).  Per spec
section 4.1 item 7 it returns the first element of the fetched sequence,
or empty string if none. -/
def firstElementOf (l : List String) : String := l.headD ""

/-! ## Configuration model (`config.go`) -/

/-- `poolConfigFieldTypeIIIFManifestURL`. -/
structure poolConfigFieldTypeIIIFManifestURL where
  urlPrefixVal : String := ""   -- json tag "url_prefix" (Go name URLPrefix)
  deriving DecidableEq

/-- `servceConfigFieldCustomInfo` (sic): a struct of optional pointers. -/
structure servceConfigFieldCustomInfo where
  iiifManifestURL : Option poolConfigFieldTypeIIIFManifestURL := none
  deriving DecidableEq

/-- `serviceConfigField`: one declared output field. -/
structure serviceConfigField where
  name : String := ""
  field : String := ""
  required : Bool := false
  customInfo : Option servceConfigFieldCustomInfo := none
  deriving DecidableEq

/-- `serviceConfigParts`: the part-level field split. -/
structure serviceConfigParts where
  indexed : List serviceConfigField := []
  custom : List serviceConfigField := []

/-- `serviceConfigFields`: item-level fields plus the parts split. -/
structure serviceConfigFields where
  item : List serviceConfigField := []
  parts : serviceConfigParts := {}

/-- `serviceConfigPdfEndpoints`. -/
structure serviceConfigPdfEndpoints where
  generate : String := ""
  status : String := ""
  download : String := ""
  delete : String := ""

/-- `serviceConfigPdf` (timeouts are opaque strings, unused by the core). -/
structure serviceConfigPdf where
  connTimeout : String := ""
  readTimeout : String := ""
  endpoints : serviceConfigPdfEndpoints := {}

/-- The slice of `serviceConfig` the request pipeline reads. -/
structure serviceConfig where
  pdf : serviceConfigPdf := {}
  fields : serviceConfigFields := {}

/-! ## Go map model -/

/-- The JSON-shaped values the handler stores in its `map[string]interface{}`
objects: strings, the Go `nil` interface, nested maps, and slices. -/
inductive JValue where
  | str (s : String)
  | nullVal
  | obj (fields : List (String × JValue))
  | arr (elems : List JValue)

/-- A Go `map[string]interface{}`, modelled as an association list with
unique keys by construction (assignment replaces in place). -/
abbrev GoMap := List (String × JValue)

/-- Go map assignment `m[k] = v`: replace the existing entry for `k` or
append a new one. -/
def mapSet (m : GoMap) (k : String) (v : JValue) : GoMap :=
  match m with
  | [] => [(k, v)]
  | (k', v') :: rest => if k' = k then (k, v) :: rest else (k', v') :: mapSet rest k v

/-- Go map read `m[k]` (with presence): `none` is the missing key. -/
def mapGet (m : GoMap) (k : String) : Option JValue :=
  match m with
  | [] => none
  | (k', v') :: rest => if k' = k then some v' else mapGet rest k

/-! ## Structural validation (`handleItemRequest` lines 51-90) -/

/-- The violation message `s.err` logs for a missing required field. -/
def missingMsg (field : String) : String :=
  "missing required digital content field: " ++ field

/-- The violation message `s.err` logs for an array-length mismatch. -/
def mismatchMsg (field : String) : String :=
  "array-type field length mismatch for field: " ++ field

/-- The validation loop over `Fields.Parts.Indexed`: `length` starts at
`-1` and is set by the first field that passes the required check; every
later field must match it.  The collected list holds the `s.err` messages
in emission order; `invalid == true` in the source is the list being
nonempty. -/
def validateLoop (doc : solrDocument) :
    List serviceConfigField → Int → List String → Int × List String
  | [], len, viols => (len, viols)
  | f :: rest, len, viols =>
    if f.required = true ∧ (getValuesByTag doc f.field).length = 0 then
      validateLoop doc rest len (viols ++ [missingMsg f.field])
    else if len = -1 then
      validateLoop doc rest ((getValuesByTag doc f.field).length : Int) viols
    else if ((getValuesByTag doc f.field).length : Int) ≠ len then
      validateLoop doc rest len (viols ++ [mismatchMsg f.field])
    else
      validateLoop doc rest len viols

/-- Validation of the indexed part fields of a document, from the initial
state `length = -1`, no violations. -/
def validateFields (indexed : List serviceConfigField) (doc : solrDocument) :
    Int × List String :=
  validateLoop doc indexed (-1) []

/-! ## PDF status client (`pdf.go`) -/

/-- Outcome of one HTTP exchange by the PDF client (`client.Do` plus the
body read): a transport failure (timeout, connection refused, other), or
a response with a status code and a body whose read may itself fail
(`none`). -/
inductive pdfFetchOutcome where
  | netFailure (msg : String)
  | httpResponse (code : Nat) (body : Option String)

/-- The external PDF HTTP collaborator: URL to outcome. -/
abbrev PdfFetch := String → pdfFetchOutcome

/-- The status URL `fmt.Sprintf("%s/%s%s", pdfURL, pid, endpoint)`. -/
def pdfEndpointURL (pdfURL pid endpoint : String) : String :=
  pdfURL ++ "/" ++ pid ++ endpoint

/-- `getPdfStatus`: reject empty url or pid, issue the request, and map
every failure class (transport error, non-200 status, body read error)
to an error; otherwise return the body as the status string. -/
def getPdfStatus (fetch : PdfFetch) (eps : serviceConfigPdfEndpoints)
    (pdfURL pid : String) : Except String String :=
  if pdfURL = "" ∨ pid = "" then
    .error "pdf url or pid is missing"
  else
    match fetch (pdfEndpointURL pdfURL pid eps.status) with
    | .netFailure _ => .error "failed to receive PDF status response"
    | .httpResponse code body =>
      if code ≠ 200 then .error "received PDF status response code"
      else
        match body with
        | none => .error "error reading pdf status response"
        | some b => .ok b

/-! ## Row assembly (`handleItemRequest` lines 94-158) -/

/-- Pass 1: for each indexed part field take `fieldValues[i]` (a fault —
index out of range — if the slice is shorter) and assign it under the
field name only when non-empty. -/
def assignIndexed (doc : solrDocument) (i : Nat) :
    List serviceConfigField → GoMap → Option GoMap
  | [], part => some part
  | f :: rest, part =>
    match (getValuesByTag doc f.field).get? i with
    | none => none
    | some val =>
      assignIndexed doc i rest (if val ≠ "" then mapSet part f.name (.str val) else part)

/-- The `var val interface{}` of the custom-field loop: `nil` until a
switch case assigns a string (iiif) or a map (pdf). -/
inductive goVal where
  | nilV
  | strV (s : String)
  | objV (o : GoMap)

/-- Go's `val != ""` on an `interface{}`: false exactly when the dynamic
value is the empty string. -/
def goValNonEmpty : goVal → Bool
  | .strV s => s ≠ ""
  | _ => true

/-- Inject the dynamic value into the output map model. -/
def goVal.toJ : goVal → JValue
  | .nilV => .nullVal
  | .strV s => .str s
  | .objV o => .obj o

/-- The pdf subsection built at lines 131-147: status (empty on client
failure) plus the four endpoint urls. -/
def pdfSection (eps : serviceConfigPdfEndpoints) (fetch : PdfFetch)
    (pdfURL pid : String) : GoMap :=
  let pdfStatus :=
    match getPdfStatus fetch eps pdfURL pid with
    | .ok st => st
    | .error _ => ""
  let urls :=
    mapSet (mapSet (mapSet (mapSet [] "generate" (.str (pdfEndpointURL pdfURL pid eps.generate)))
      "status" (.str (pdfEndpointURL pdfURL pid eps.status)))
      "download" (.str (pdfEndpointURL pdfURL pid eps.download)))
      "delete" (.str (pdfEndpointURL pdfURL pid eps.delete))
  mapSet (mapSet [] "status" (.str pdfStatus)) "urls" (.obj urls)

/-- Result of one iteration of the custom-field loop: `fault` is a Go
panic (failed `part["pid"].(string)` assertion or nil-pointer custom-info
dereference), `skip` is a `continue`, `assign v` falls through to the
`if val != ""` assignment with the final value of `val`. -/
inductive customStep where
  | fault
  | skip
  | assign (v : goVal)

/-- One iteration of the custom loop (lines 108-150), dispatching on the
declared field name.  For `iiif_manifest_url` the pid assertion runs
first, then the custom-info pointers are dereferenced.  For `pdf` an
empty url or (string-valued) empty pid is a silent `continue`; a missing
or non-string pid entry is a failed type assertion.  An unhandled name
leaves `val` as the nil interface, which still reaches the assignment. -/
def customVal (eps : serviceConfigPdfEndpoints) (fetch : PdfFetch)
    (doc : solrDocument) (part : GoMap) (f : serviceConfigField) : customStep :=
  let fieldValues := getValuesByTag doc f.field
  if f.name = "iiif_manifest_url" then
    match mapGet part "pid" with
    | some (.str pid) =>
      match f.customInfo with
      | none => .fault
      | some ci =>
        match ci.iiifManifestURL with
        | none => .fault
        | some m => .assign (.strV (m.urlPrefixVal ++ "/" ++ pid))
    | _ => .fault
  else if f.name = "pdf" then
    if firstElementOf fieldValues = "" then .skip
    else
      match mapGet part "pid" with
      | some (.str pid) =>
        if pid = "" then .skip
        else .assign (.objV (pdfSection eps fetch (firstElementOf fieldValues) pid))
      | _ => .fault
  else .assign .nilV

/-- Pass 2: the custom-field loop over `Fields.Parts.Custom`. -/
def assignCustom (eps : serviceConfigPdfEndpoints) (fetch : PdfFetch)
    (doc : solrDocument) : List serviceConfigField → GoMap → Option GoMap
  | [], part => some part
  | f :: rest, part =>
    match customVal eps fetch doc part f with
    | .fault => none
    | .skip => assignCustom eps fetch doc rest part
    | .assign v =>
      assignCustom eps fetch doc rest
        (if goValNonEmpty v then mapSet part f.name v.toJ else part)

/-- Build the part map for repetition index `i`: pass 1 then pass 2. -/
def buildRow (cfg : serviceConfig) (fetch : PdfFetch) (doc : solrDocument)
    (i : Nat) : Option GoMap :=
  match assignIndexed doc i cfg.fields.parts.indexed [] with
  | none => none
  | some part => assignCustom cfg.pdf.endpoints fetch doc cfg.fields.parts.custom part

/-- The rows for indices `i, i+1, ..., i+n-1`, in order; a fault in any
row aborts the whole loop. -/
def buildRowsFrom (cfg : serviceConfig) (fetch : PdfFetch) (doc : solrDocument)
    (i : Nat) : Nat → Option (List GoMap)
  | 0 => some []
  | n + 1 =>
    match buildRow cfg fetch doc i with
    | none => none
    | some row =>
      match buildRowsFrom cfg fetch doc (i + 1) n with
      | none => none
      | some rest => some (row :: rest)

/-- The `for i := 0; i < length; i++` loop building `parts`. -/
def buildParts (cfg : serviceConfig) (fetch : PdfFetch) (doc : solrDocument)
    (n : Nat) : Option (List GoMap) :=
  buildRowsFrom cfg fetch doc 0 n

/-- Item-level fields (lines 164-169): first-element convention, assign
only when non-empty. -/
def assignItem (doc : solrDocument) :
    List serviceConfigField → GoMap → GoMap
  | [], item => item
  | f :: rest, item =>
    let val := firstElementOf (getValuesByTag doc f.field)
    assignItem doc rest (if val ≠ "" then mapSet item f.name (.str val) else item)

/-! ## The item request handler (`handleItemRequest`) -/

/-- The outcome of `s.solrQuery()` plus the decoded documents: either the
query/transport layer failed, or it yielded a (possibly empty) document
list.  `meta.numRows` is the length of that list. -/
inductive solrQueryResult where
  | failure (msg : String)
  | success (docs : List solrDocument)

/-- `searchResponse`: status code, optional JSON data, optional error. -/
structure searchResponse where
  status : Nat
  data : Option JValue
  err : Option String

/-- `handleItemRequest`, after the query: not-found check, structural
validation, empty-record check, two-pass assembly, item-level fields,
and the `parts` key.  `none` models a Go panic escaping the handler. -/
def handleItemRequest (cfg : serviceConfig) (fetch : PdfFetch)
    (solr : solrQueryResult) : Option searchResponse :=
  match solr with
  | .failure msg => some ⟨500, none, some msg⟩
  | .success docs =>
    match docs.head? with
    | none => some ⟨500, none, some "record not found"⟩
    | some doc =>
      let v := validateFields cfg.fields.parts.indexed doc
      if v.2 ≠ [] then
        some ⟨500, none, some "digital content field inconsistencies"⟩
      else if v.1 = 0 then
        some ⟨500, none, some "no digital parts found in this record"⟩
      else
        match buildParts cfg fetch doc v.1.toNat with
        | none => none
        | some parts =>
          let item := assignItem doc cfg.fields.item []
          some ⟨200, some (.obj (mapSet item "parts" (.arr (parts.map .obj)))), none⟩

/-! ## Serialized field order (`encoding/json` on Go maps) -/

/-- Lexicographic order on character lists; with UTF-8 this agrees with
Go's byte-wise `<` on strings (UTF-8 encoding preserves code-point
order). -/
def charListLe : List Char → List Char → Bool
  | [], _ => true
  | _ :: _, [] => false
  | a :: as, b :: bs =>
    if a < b then true
    else if b < a then false
    else charListLe as bs

/-- Go's string comparison used when `encoding/json` sorts map keys. -/
def strLe (a b : String) : Bool := charListLe a.data b.data

/-- Insert one entry into a key-sorted list of entries. -/
def insertPair (p : String × JValue) : GoMap → GoMap
  | [] => [p]
  | q :: rest => if strLe p.1 q.1 then p :: q :: rest else q :: insertPair p rest

/-- Go's `encoding/json` marshals a `map[string]interface{}` with its
keys in sorted order; `sortPairs` is that key ordering on the model. -/
def sortPairs : GoMap → GoMap
  | [] => []
  | p :: rest => insertPair p (sortPairs rest)

/-- The sequence of field names, in the order the serialized JSON emits
them for one map. -/
def jsonKeyOrder (m : GoMap) : List String :=
  (sortPairs m).map Prod.fst

/-- Extract the assembled `parts` rows from a handler response (empty
when the response is not a successful item tree). -/
def respParts (r : Option searchResponse) : List GoMap :=
  match r with
  | some ⟨_, some (.obj item), _⟩ =>
    match mapGet item "parts" with
    | some (.arr l) =>
      l.filterMap fun v => match v with | .obj row => some row | _ => none
    | _ => []
  | _ => []

/-! ## Predicates used by the specifications -/

/-- The PDF client failure classes of the spec: transport error (timeout,
connection refused, other network failure), non-200 status, or a body
read/decode failure. -/
def pdfOutcomeFails : pdfFetchOutcome → Prop
  | .netFailure _ => True
  | .httpResponse code body => code ≠ 200 ∨ body = none

/-- The custom part-field shapes accepted by `validateConfig` at startup:
`iiif_manifest_url` with its custom-info sections present, or `pdf`; any
other custom name makes the service exit before serving requests. -/
def validCustomField (f : serviceConfigField) : Bool :=
  if f.name = "iiif_manifest_url" then
    match f.customInfo with
    | some ci => ci.iiifManifestURL.isSome
    | none => false
  else f.name = "pdf"

/-- The custom pass dereferences the row's `pid` entry exactly when some
custom field is `iiif_manifest_url`, or is `pdf` with a non-empty url
value in the document (the url is read from the whole document, so this
does not depend on the repetition index). -/
def rowNeedsPid (custom : List serviceConfigField) (doc : solrDocument) : Prop :=
  (∃ f ∈ custom, f.name = "iiif_manifest_url") ∨
  (∃ f ∈ custom, f.name = "pdf" ∧ firstElementOf (getValuesByTag doc f.field) ≠ "")

/-- No key of the map holds the empty string as its value. -/
def noEmptyStrVal (m : GoMap) : Prop :=
  ∀ k v, mapGet m k = some v → v ≠ .str ""

/-- Two rows that agree everywhere except possibly at the `"pdf"` key. -/
def exceptPdfAgree (part part' : GoMap) : Prop :=
  ∀ k, k ≠ "pdf" → mapGet part k = mapGet part' k

/-! ## Concrete fixtures -/

/-- A PDF client whose every exchange fails at the transport layer. -/
def failFetch : PdfFetch := fun _ => .netFailure "Timeout"

/-- A PDF client answering 200 with the given body. -/
def okFetch (st : String) : PdfFetch := fun _ => .httpResponse 200 (some st)

/-- Custom-info section holding an IIIF manifest url prefix. -/
def iiifInfo (pre : String) : servceConfigFieldCustomInfo :=
  { iiifManifestURL := some { urlPrefixVal := pre } }

/-- A configuration with one required indexed part field and an
`iiif_manifest_url` custom field, but no field named `pid`. -/
def cfgNoPid : serviceConfig :=
  { fields := { parts :=
    { indexed := [{ name := "title", field := "individual_call_number_a", required := true }],
      custom := [{ name := "iiif_manifest_url", field := "url_iiif_manifest_stored",
                   customInfo := some (iiifInfo "https://iiif.example") }] } } }

/-- A document with one repetition and a PDF url. -/
def docOnePart : solrDocument :=
  { individualCallNumber := ["Page 1"], pdfURL := ["http://pdf.example"] }

/-- A full configuration: item-level field, indexed `pid` and
`thumbnail_url` part fields, and both custom part fields. -/
def cfgFull : serviceConfig :=
  { pdf := { endpoints :=
      { generate := "/generate", status := "/status", download := "/download", delete := "/delete" } },
    fields :=
    { item := [{ name := "rights_wrapper_url", field := "rights_wrapper_url_a" }],
      parts :=
      { indexed := [{ name := "pid", field := "alternate_id_a", required := true },
                    { name := "thumbnail_url", field := "thumbnail_url_a" }],
        custom := [{ name := "iiif_manifest_url", field := "url_iiif_manifest_stored",
                     customInfo := some (iiifInfo "https://iiif.example") },
                   { name := "pdf", field := "pdf_url_a" }] } } }

/-- A document with two repetitions, non-empty pids, and a PDF url. -/
def docTwoParts : solrDocument :=
  { alternateID := ["p1", "p2"], thumbnailURL := ["t1", "t2"],
    pdfURL := ["http://pdf.example"], rightsWrapperURL := ["http://rights.example/p1"] }

/-- A configuration whose indexed part fields will disagree in length on
`docMismatch`, with one required field absent there. -/
def cfgMismatch : serviceConfig :=
  { fields := { parts :=
    { indexed := [{ name := "title", field := "individual_call_number_a", required := true },
                  { name := "thumb", field := "thumbnail_url_a" },
                  { name := "alternate_id", field := "alternate_id_a", required := true }] } } }

/-- Two titles but only one thumbnail and no alternate ids. -/
def docMismatch : solrDocument :=
  { individualCallNumber := ["Page 1", "Page 2"], thumbnailURL := ["t1"] }

/-- Field declaration order `thumbnail_url` before `pid`: not alphabetical. -/
def cfgOrder : serviceConfig :=
  { fields := { parts :=
    { indexed := [{ name := "thumbnail_url", field := "thumbnail_url_a" },
                  { name := "pid", field := "alternate_id_a", required := true }] } } }

/-- One repetition for `cfgOrder`. -/
def docOrder : solrDocument := { alternateID := ["p1"], thumbnailURL := ["t1"] }

/-- One optional array-valued indexed field. -/
def cfgZeroParts : serviceConfig :=
  { fields := { parts :=
    { indexed := [{ name := "thumbnail_url", field := "thumbnail_url_a" }] } } }

/-- A document with no values at all: cardinality resolves to zero. -/
def docNoParts : solrDocument := {}

/-- Required pid plus an optional thumbnail whose only value is empty. -/
def cfgEmptyVals : serviceConfig :=
  { fields := { parts :=
    { indexed := [{ name := "pid", field := "alternate_id_a", required := true },
                  { name := "thumbnail_url", field := "thumbnail_url_a" }] } } }

/-- The thumbnail value at index 0 is the empty string. -/
def docEmptyVals : solrDocument := { alternateID := ["p1"], thumbnailURL := [""] }

/-- A `pdf` custom field but no `pid` field anywhere. -/
def cfgPdfOnly : serviceConfig :=
  { fields := { parts :=
    { indexed := [{ name := "title", field := "individual_call_number_a", required := true }],
      custom := [{ name := "pdf", field := "pdf_url_a" }] } } }

/-- One repetition with a non-empty PDF url. -/
def docPdfOnly : solrDocument :=
  { individualCallNumber := ["T"], pdfURL := ["http://pdf.example"] }

/-- A bare `pdf` custom field declaration. -/
def pdfField : serviceConfigField := { name := "pdf", field := "pdf_url_a" }

/-- A document with no PDF url. -/
def docNoPdfUrl : solrDocument := { individualCallNumber := ["T"] }

/-- Required pid (present but empty at index 0) plus an iiif custom field. -/
def cfgIiifEmptyPid : serviceConfig :=
  { fields := { parts :=
    { indexed := [{ name := "pid", field := "alternate_id_a", required := true },
                  { name := "title", field := "individual_call_number_a" }],
      custom := [{ name := "iiif_manifest_url", field := "url_iiif_manifest_stored",
                   customInfo := some (iiifInfo "https://iiif.example") }] } } }

/-- The pid value at index 0 is the empty string. -/
def docPidEmpty : solrDocument := { alternateID := [""], individualCallNumber := ["T"] }

/-! ## Map lemmas -/

theorem mapGet_mapSet_self (m : GoMap) (k : String) (v : JValue) :
    mapGet (mapSet m k v) k = some v := by
  induction m with
  | nil => simp [mapSet, mapGet]
  | cons p rest ih =>
    obtain ⟨k', v'⟩ := p
    by_cases h : k' = k
    · simp [mapSet, h, mapGet]
    · simp [mapSet, h, mapGet, ih]

theorem mapGet_mapSet_ne (m : GoMap) (k k' : String) (v : JValue) (h : k' ≠ k) :
    mapGet (mapSet m k v) k' = mapGet m k' := by
  induction m with
  | nil => simp [mapSet, mapGet, Ne.symm h]
  | cons p rest ih =>
    obtain ⟨a, b⟩ := p
    by_cases ha : a = k
    · subst ha
      simp [mapSet, mapGet, Ne.symm h]
    · by_cases ha' : a = k'
      · subst ha'
        simp [mapSet, mapGet, ha, Ne.symm h]
      · simp [mapSet, mapGet, ha, ha', ih]

theorem mapGet_mapSet_cases (m : GoMap) (k k' : String) (v w : JValue)
    (h : mapGet (mapSet m k v) k' = some w) : w = v ∨ mapGet m k' = some w := by
  by_cases hk : k' = k
  · subst hk
    rw [mapGet_mapSet_self] at h
    exact Or.inl (Option.some.inj h).symm
  · right
    rwa [mapGet_mapSet_ne m k k' v hk] at h

/-! ## Validation lemmas -/

theorem validateLoop_cons (doc : solrDocument) (f : serviceConfigField)
    (rest : List serviceConfigField) (len : Int) (viols : List String) :
    validateLoop doc (f :: rest) len viols =
      if f.required = true ∧ (getValuesByTag doc f.field).length = 0 then
        validateLoop doc rest len (viols ++ [missingMsg f.field])
      else if len = -1 then
        validateLoop doc rest ((getValuesByTag doc f.field).length : Int) viols
      else if ((getValuesByTag doc f.field).length : Int) ≠ len then
        validateLoop doc rest len (viols ++ [mismatchMsg f.field])
      else
        validateLoop doc rest len viols := rfl

theorem validateLoop_mono (doc : solrDocument) (l : List serviceConfigField) :
    ∀ (len : Int) (viols : List String),
      ∃ extra, (validateLoop doc l len viols).2 = viols ++ extra := by
  induction l with
  | nil => exact fun len viols => ⟨[], by simp [validateLoop]⟩
  | cons f rest ih =>
    intro len viols
    by_cases h1 : f.required = true ∧ (getValuesByTag doc f.field).length = 0
    · obtain ⟨e, he⟩ := ih len (viols ++ [missingMsg f.field])
      refine ⟨missingMsg f.field :: e, ?_⟩
      rw [validateLoop_cons, if_pos h1, he, List.append_assoc]
      rfl
    · by_cases h2 : len = -1
      · obtain ⟨e, he⟩ := ih ((getValuesByTag doc f.field).length : Int) viols
        exact ⟨e, by rw [validateLoop_cons, if_neg h1, if_pos h2, he]⟩
      · by_cases h3 : ((getValuesByTag doc f.field).length : Int) ≠ len
        · obtain ⟨e, he⟩ := ih len (viols ++ [mismatchMsg f.field])
          refine ⟨mismatchMsg f.field :: e, ?_⟩
          rw [validateLoop_cons, if_neg h1, if_neg h2, if_pos h3, he, List.append_assoc]
          rfl
        · obtain ⟨e, he⟩ := ih len viols
          exact ⟨e, by rw [validateLoop_cons, if_neg h1, if_neg h2, if_neg h3, he]⟩

theorem validateLoop_len_fixed (doc : solrDocument) (l : List serviceConfigField) :
    ∀ (len : Int) (viols : List String), len ≠ -1 →
      (validateLoop doc l len viols).1 = len := by
  induction l with
  | nil => intro len viols _; simp [validateLoop]
  | cons f rest ih =>
    intro len viols h
    by_cases h1 : f.required = true ∧ (getValuesByTag doc f.field).length = 0
    · rw [validateLoop_cons, if_pos h1]
      exact ih len _ h
    · by_cases h3 : ((getValuesByTag doc f.field).length : Int) ≠ len
      · rw [validateLoop_cons, if_neg h1, if_neg h, if_pos h3]
        exact ih len _ h
      · rw [validateLoop_cons, if_neg h1, if_neg h, if_neg h3]
        exact ih len viols h

theorem validateLoop_uniform (doc : solrDocument) (N : Nat) (hN : 0 < N) :
    ∀ l : List serviceConfigField,
      (∀ f ∈ l, (getValuesByTag doc f.field).length = N) →
      ∀ viols, validateLoop doc l (N : Int) viols = ((N : Int), viols) := by
  intro l
  induction l with
  | nil => intro _ viols; simp [validateLoop]
  | cons f rest ih =>
    intro h viols
    have hf : (getValuesByTag doc f.field).length = N := h f (List.mem_cons_self f rest)
    have h1 : ¬(f.required = true ∧ (getValuesByTag doc f.field).length = 0) := by
      rintro ⟨-, h0⟩
      omega
    have h2 : (N : Int) ≠ -1 := by omega
    have h3 : ¬(((getValuesByTag doc f.field).length : Int) ≠ (N : Int)) := by
      rw [hf]
      exact fun hc => hc rfl
    rw [validateLoop_cons, if_neg h1, if_neg h2, if_neg h3]
    exact ih (fun g hg => h g (List.mem_cons_of_mem f hg)) viols

theorem validateFields_uniform (doc : solrDocument) (N : Nat) (hN : 0 < N)
    (f0 : serviceConfigField) (rest : List serviceConfigField)
    (h : ∀ f ∈ f0 :: rest, (getValuesByTag doc f.field).length = N) :
    validateFields (f0 :: rest) doc = ((N : Int), []) := by
  have hf : (getValuesByTag doc f0.field).length = N := h f0 (List.mem_cons_self f0 rest)
  have h1 : ¬(f0.required = true ∧ (getValuesByTag doc f0.field).length = 0) := by
    rintro ⟨-, h0⟩
    omega
  rw [validateFields, validateLoop_cons, if_neg h1, if_pos rfl, hf]
  exact validateLoop_uniform doc N hN rest (fun g hg => h g (List.mem_cons_of_mem f0 hg)) []

theorem validateLoop_clean (doc : solrDocument) (l : List serviceConfigField) :
    ∀ (len : Int) (viols : List String),
      (validateLoop doc l len viols).2 = viols →
      ∀ f ∈ l, ¬(f.required = true ∧ (getValuesByTag doc f.field).length = 0) ∧
        ((getValuesByTag doc f.field).length : Int) = (validateLoop doc l len viols).1 := by
  induction l with
  | nil => intro len viols _ f hf; cases hf
  | cons g rest ih =>
    intro len viols hsame f hf
    by_cases h1 : g.required = true ∧ (getValuesByTag doc g.field).length = 0
    · exfalso
      rw [validateLoop_cons, if_pos h1] at hsame
      obtain ⟨e, he⟩ := validateLoop_mono doc rest len (viols ++ [missingMsg g.field])
      rw [he] at hsame
      have hlen := congrArg List.length hsame
      simp [List.length_append] at hlen
    · by_cases h2 : len = -1
      · rw [validateLoop_cons, if_neg h1, if_pos h2] at hsame ⊢
        rcases List.mem_cons.mp hf with rfl | hf'
        · refine ⟨h1, ?_⟩
          have hne : ((getValuesByTag doc f.field).length : Int) ≠ -1 := by omega
          rw [validateLoop_len_fixed doc rest _ viols hne]
        · exact ih _ viols hsame f hf'
      · by_cases h3 : ((getValuesByTag doc g.field).length : Int) ≠ len
        · exfalso
          rw [validateLoop_cons, if_neg h1, if_neg h2, if_pos h3] at hsame
          obtain ⟨e, he⟩ := validateLoop_mono doc rest len (viols ++ [mismatchMsg g.field])
          rw [he] at hsame
          have hlen := congrArg List.length hsame
          simp [List.length_append] at hlen
        · rw [validateLoop_cons, if_neg h1, if_neg h2, if_neg h3] at hsame ⊢
          rcases List.mem_cons.mp hf with rfl | hf'
          · refine ⟨h1, ?_⟩
            rw [validateLoop_len_fixed doc rest len viols h2]
            exact not_ne_iff.mp h3
          · exact ih len viols hsame f hf'

theorem validateLoop_missing_mem (doc : solrDocument) (l : List serviceConfigField) :
    ∀ (len : Int) (viols : List String) (f : serviceConfigField), f ∈ l →
      f.required = true → (getValuesByTag doc f.field).length = 0 →
      missingMsg f.field ∈ (validateLoop doc l len viols).2 := by
  induction l with
  | nil => intro _ _ f hf; cases hf
  | cons g rest ih =>
    intro len viols f hf hreq hlen
    rcases List.mem_cons.mp hf with rfl | hf'
    · rw [validateLoop_cons, if_pos ⟨hreq, hlen⟩]
      obtain ⟨e, he⟩ := validateLoop_mono doc rest len (viols ++ [missingMsg f.field])
      rw [he]
      simp
    · by_cases h1 : g.required = true ∧ (getValuesByTag doc g.field).length = 0
      · rw [validateLoop_cons, if_pos h1]
        exact ih len _ f hf' hreq hlen
      · by_cases h2 : len = -1
        · rw [validateLoop_cons, if_neg h1, if_pos h2]
          exact ih _ viols f hf' hreq hlen
        · by_cases h3 : ((getValuesByTag doc g.field).length : Int) ≠ len
          · rw [validateLoop_cons, if_neg h1, if_neg h2, if_pos h3]
            exact ih len _ f hf' hreq hlen
          · rw [validateLoop_cons, if_neg h1, if_neg h2, if_neg h3]
            exact ih len viols f hf' hreq hlen

theorem validateLoop_mismatch_mem (doc : solrDocument) (l : List serviceConfigField) :
    ∀ (len : Int) (viols : List String) (f : serviceConfigField), f ∈ l →
      ¬(f.required = true ∧ (getValuesByTag doc f.field).length = 0) →
      ((getValuesByTag doc f.field).length : Int) ≠ (validateLoop doc l len viols).1 →
      mismatchMsg f.field ∈ (validateLoop doc l len viols).2 := by
  induction l with
  | nil => intro _ _ f hf; cases hf
  | cons g rest ih =>
    intro len viols f hf hnm hne
    rcases List.mem_cons.mp hf with rfl | hf'
    · rw [validateLoop_cons, if_neg hnm] at hne ⊢
      by_cases h2 : len = -1
      · exfalso
        rw [if_pos h2] at hne
        have hcast : ((getValuesByTag doc f.field).length : Int) ≠ -1 := by omega
        rw [validateLoop_len_fixed doc rest _ viols hcast] at hne
        exact hne rfl
      · rw [if_neg h2] at hne ⊢
        by_cases h3 : ((getValuesByTag doc f.field).length : Int) ≠ len
        · rw [if_pos h3]
          obtain ⟨e, he⟩ := validateLoop_mono doc rest len (viols ++ [mismatchMsg f.field])
          rw [he]
          simp
        · exfalso
          rw [if_neg h3, validateLoop_len_fixed doc rest len viols h2] at hne
          exact h3 hne
    · by_cases h1 : g.required = true ∧ (getValuesByTag doc g.field).length = 0
      · rw [validateLoop_cons, if_pos h1] at hne ⊢
        exact ih len _ f hf' hnm hne
      · by_cases h2 : len = -1
        · rw [validateLoop_cons, if_neg h1, if_pos h2] at hne ⊢
          exact ih _ viols f hf' hnm hne
        · by_cases h3 : ((getValuesByTag doc g.field).length : Int) ≠ len
          · rw [validateLoop_cons, if_neg h1, if_neg h2, if_pos h3] at hne ⊢
            exact ih len _ f hf' hnm hne
          · rw [validateLoop_cons, if_neg h1, if_neg h2, if_neg h3] at hne ⊢
            exact ih len viols f hf' hnm hne

theorem validateFields_two_lengths_ne (doc : solrDocument) (l : List serviceConfigField)
    (f g : serviceConfigField) (hf : f ∈ l) (hg : g ∈ l)
    (hne : (getValuesByTag doc f.field).length ≠ (getValuesByTag doc g.field).length) :
    (validateFields l doc).2 ≠ [] := by
  intro hnil
  have hclean := validateLoop_clean doc l (-1) [] hnil
  have h1 := (hclean f hf).2
  have h2 := (hclean g hg).2
  rw [← h2] at h1
  exact hne (by exact_mod_cast h1)

/-! ## Assembly unfolding lemmas -/

theorem assignIndexed_cons_none (doc : solrDocument) (i : Nat) (f : serviceConfigField)
    (rest : List serviceConfigField) (part : GoMap)
    (h : (getValuesByTag doc f.field).get? i = none) :
    assignIndexed doc i (f :: rest) part = none := by
  simp only [assignIndexed, h]

theorem assignIndexed_cons_some (doc : solrDocument) (i : Nat) (f : serviceConfigField)
    (rest : List serviceConfigField) (part : GoMap) (v : String)
    (h : (getValuesByTag doc f.field).get? i = some v) :
    assignIndexed doc i (f :: rest) part =
      assignIndexed doc i rest (if v ≠ "" then mapSet part f.name (.str v) else part) := by
  simp only [assignIndexed, h]

theorem assignCustom_cons_fault (eps : serviceConfigPdfEndpoints) (fetch : PdfFetch)
    (doc : solrDocument) (f : serviceConfigField) (rest : List serviceConfigField) (part : GoMap)
    (h : customVal eps fetch doc part f = .fault) :
    assignCustom eps fetch doc (f :: rest) part = none := by
  simp only [assignCustom, h]

theorem assignCustom_cons_skip (eps : serviceConfigPdfEndpoints) (fetch : PdfFetch)
    (doc : solrDocument) (f : serviceConfigField) (rest : List serviceConfigField) (part : GoMap)
    (h : customVal eps fetch doc part f = .skip) :
    assignCustom eps fetch doc (f :: rest) part = assignCustom eps fetch doc rest part := by
  simp only [assignCustom, h]

theorem assignCustom_cons_assign (eps : serviceConfigPdfEndpoints) (fetch : PdfFetch)
    (doc : solrDocument) (f : serviceConfigField) (rest : List serviceConfigField)
    (part : GoMap) (v : goVal)
    (h : customVal eps fetch doc part f = .assign v) :
    assignCustom eps fetch doc (f :: rest) part =
      assignCustom eps fetch doc rest
        (if goValNonEmpty v then mapSet part f.name v.toJ else part) := by
  simp only [assignCustom, h]

theorem customVal_iiif (eps : serviceConfigPdfEndpoints) (fetch : PdfFetch)
    (doc : solrDocument) (part : GoMap) (f : serviceConfigField)
    (h : f.name = "iiif_manifest_url") :
    customVal eps fetch doc part f =
      (match mapGet part "pid" with
       | some (.str pid) =>
         match f.customInfo with
         | none => .fault
         | some ci =>
           match ci.iiifManifestURL with
           | none => .fault
           | some m => .assign (.strV (m.urlPrefixVal ++ "/" ++ pid))
       | _ => .fault) := by
  unfold customVal
  rw [if_pos h]

theorem customVal_pdf (eps : serviceConfigPdfEndpoints) (fetch : PdfFetch)
    (doc : solrDocument) (part : GoMap) (f : serviceConfigField)
    (h : f.name = "pdf") :
    customVal eps fetch doc part f =
      (if firstElementOf (getValuesByTag doc f.field) = "" then .skip
       else
         match mapGet part "pid" with
         | some (.str pid) =>
           if pid = "" then .skip
           else .assign (.objV (pdfSection eps fetch (firstElementOf (getValuesByTag doc f.field)) pid))
         | _ => .fault) := by
  have h' : f.name ≠ "iiif_manifest_url" := by rw [h]; decide
  unfold customVal
  rw [if_neg h', if_pos h]

theorem customVal_other (eps : serviceConfigPdfEndpoints) (fetch : PdfFetch)
    (doc : solrDocument) (part : GoMap) (f : serviceConfigField)
    (h1 : f.name ≠ "iiif_manifest_url") (h2 : f.name ≠ "pdf") :
    customVal eps fetch doc part f = .assign .nilV := by
  unfold customVal
  rw [if_neg h1, if_neg h2]

/-! ## Startup-validated custom-field shapes -/

theorem validCustomField_spec (f : serviceConfigField) (h : validCustomField f = true) :
    (f.name = "iiif_manifest_url" ∧
      ∃ ci m, f.customInfo = some ci ∧ ci.iiifManifestURL = some m) ∨
    (f.name ≠ "iiif_manifest_url" ∧ f.name = "pdf") := by
  unfold validCustomField at h
  by_cases hn : f.name = "iiif_manifest_url"
  · rw [if_pos hn] at h
    left
    refine ⟨hn, ?_⟩
    cases hci : f.customInfo with
    | none => simp [hci] at h
    | some ci =>
      simp only [hci] at h
      cases hm : ci.iiifManifestURL with
      | none => rw [hm] at h; simp at h
      | some m => exact ⟨ci, m, rfl, hm⟩
  · rw [if_neg hn] at h
    exact Or.inr ⟨hn, by simpa using h⟩

theorem concatSlash_ne_empty (a b : String) : a ++ "/" ++ b ≠ "" := by
  intro h
  have h2 := congrArg String.length h
  rw [String.length_append, String.length_append] at h2
  have h3 : "/".length = 1 := rfl
  have h4 : String.length "" = 0 := rfl
  omega

/-! ## Pass-1 lemmas -/

theorem assignIndexed_isSome (doc : solrDocument) (i : Nat) :
    ∀ (l : List serviceConfigField) (part : GoMap),
      (∀ f ∈ l, i < (getValuesByTag doc f.field).length) →
      (assignIndexed doc i l part).isSome = true := by
  intro l
  induction l with
  | nil => intro part _; rfl
  | cons f rest ih =>
    intro part h
    have hi : i < (getValuesByTag doc f.field).length := h f (List.mem_cons_self f rest)
    have hv := List.get?_eq_get hi
    rw [assignIndexed_cons_some doc i f rest part _ hv]
    exact ih _ (fun g hg => h g (List.mem_cons_of_mem f hg))

theorem assignIndexed_pid_not_str (doc : solrDocument) (i : Nat) :
    ∀ (l : List serviceConfigField) (part : GoMap),
      (∀ s, mapGet part "pid" ≠ some (.str s)) →
      (∀ f ∈ l, f.name = "pid" → (getValuesByTag doc f.field).getD i "" = "") →
      ∀ q, assignIndexed doc i l part = some q →
        ∀ s, mapGet q "pid" ≠ some (.str s) := by
  intro l
  induction l with
  | nil =>
    intro part hpid _ q hq
    cases hq
    exact hpid
  | cons f rest ih =>
    intro part hpid hempty q hq
    cases hv : (getValuesByTag doc f.field).get? i with
    | none => rw [assignIndexed_cons_none doc i f rest part hv] at hq; cases hq
    | some v =>
      rw [assignIndexed_cons_some doc i f rest part v hv] at hq
      by_cases hne : v ≠ ""
      · rw [if_pos hne] at hq
        refine ih (mapSet part f.name (.str v)) ?_ (fun g hg => hempty g (List.mem_cons_of_mem f hg)) q hq
        intro s
        by_cases hfn : f.name = "pid"
        · exfalso
          have hd := hempty f (List.mem_cons_self f rest) hfn
          have hdd : (getValuesByTag doc f.field).getD i "" =
              ((getValuesByTag doc f.field).get? i).getD "" := rfl
          rw [hdd, hv] at hd
          exact hne hd
        · rw [mapGet_mapSet_ne part f.name "pid" (.str v) (fun hc => hfn hc.symm)]
          exact hpid s
      · rw [if_neg hne] at hq
        exact ih part hpid (fun g hg => hempty g (List.mem_cons_of_mem f hg)) q hq

/-! ## Non-empty-value invariants -/

theorem noEmptyStrVal_nil : noEmptyStrVal [] := by
  intro k v hv
  cases hv

theorem noEmptyStrVal_mapSet (m : GoMap) (k : String) (v : JValue)
    (hm : noEmptyStrVal m) (hv : v ≠ .str "") : noEmptyStrVal (mapSet m k v) := by
  intro k' w hw
  rcases mapGet_mapSet_cases m k k' v w hw with rfl | hw'
  · exact hv
  · exact hm k' w hw'

theorem assignIndexed_noEmpty (doc : solrDocument) (i : Nat) :
    ∀ (l : List serviceConfigField) (part : GoMap), noEmptyStrVal part →
      ∀ q, assignIndexed doc i l part = some q → noEmptyStrVal q := by
  intro l
  induction l with
  | nil => intro part hp q hq; cases hq; exact hp
  | cons f rest ih =>
    intro part hp q hq
    cases hv : (getValuesByTag doc f.field).get? i with
    | none => rw [assignIndexed_cons_none doc i f rest part hv] at hq; cases hq
    | some v =>
      rw [assignIndexed_cons_some doc i f rest part v hv] at hq
      by_cases hne : v ≠ ""
      · rw [if_pos hne] at hq
        exact ih _ (noEmptyStrVal_mapSet part f.name (.str v) hp
          (fun hc => hne (JValue.str.inj hc))) q hq
      · rw [if_neg hne] at hq
        exact ih part hp q hq

theorem goVal_toJ_ne_emptyStr (v : goVal) (h : goValNonEmpty v = true) : v.toJ ≠ .str "" := by
  cases v with
  | nilV => exact fun hc => nomatch hc
  | strV s =>
    intro hc
    have hs : s = "" := JValue.str.inj hc
    rw [hs] at h
    simp [goValNonEmpty] at h
  | objV o => exact fun hc => nomatch hc

theorem assignCustom_noEmpty (eps : serviceConfigPdfEndpoints) (fetch : PdfFetch)
    (doc : solrDocument) :
    ∀ (l : List serviceConfigField) (part : GoMap), noEmptyStrVal part →
      ∀ q, assignCustom eps fetch doc l part = some q → noEmptyStrVal q := by
  intro l
  induction l with
  | nil => intro part hp q hq; cases hq; exact hp
  | cons f rest ih =>
    intro part hp q hq
    cases hs : customVal eps fetch doc part f with
    | fault => rw [assignCustom_cons_fault _ _ _ _ _ _ hs] at hq; cases hq
    | skip => rw [assignCustom_cons_skip _ _ _ _ _ _ hs] at hq; exact ih part hp q hq
    | assign v =>
      rw [assignCustom_cons_assign _ _ _ _ _ _ _ hs] at hq
      by_cases hne : goValNonEmpty v = true
      · rw [if_pos hne] at hq
        exact ih _ (noEmptyStrVal_mapSet part f.name v.toJ hp (goVal_toJ_ne_emptyStr v hne)) q hq
      · rw [if_neg hne] at hq
        exact ih part hp q hq

theorem assignItem_cons (doc : solrDocument) (f : serviceConfigField)
    (rest : List serviceConfigField) (item : GoMap) :
    assignItem doc (f :: rest) item =
      assignItem doc rest
        (if firstElementOf (getValuesByTag doc f.field) ≠ "" then
          mapSet item f.name (.str (firstElementOf (getValuesByTag doc f.field)))
        else item) := rfl

theorem assignItem_noEmpty (doc : solrDocument) :
    ∀ (l : List serviceConfigField) (item : GoMap), noEmptyStrVal item →
      noEmptyStrVal (assignItem doc l item) := by
  intro l
  induction l with
  | nil => intro item hi; exact hi
  | cons f rest ih =>
    intro item hi
    rw [assignItem_cons]
    by_cases hne : firstElementOf (getValuesByTag doc f.field) ≠ ""
    · rw [if_pos hne]
      exact ih _ (noEmptyStrVal_mapSet item f.name _ hi (fun hc => hne (JValue.str.inj hc)))
    · rw [if_neg hne]
      exact ih item hi

theorem buildRow_noEmpty (cfg : serviceConfig) (fetch : PdfFetch) (doc : solrDocument)
    (i : Nat) (row : GoMap) (h : buildRow cfg fetch doc i = some row) : noEmptyStrVal row := by
  unfold buildRow at h
  cases hp : assignIndexed doc i cfg.fields.parts.indexed [] with
  | none => rw [hp] at h; cases h
  | some part =>
    rw [hp] at h
    exact assignCustom_noEmpty _ _ _ _ part
      (assignIndexed_noEmpty doc i _ [] noEmptyStrVal_nil part hp) row h

theorem buildRowsFrom_noEmpty (cfg : serviceConfig) (fetch : PdfFetch) (doc : solrDocument) :
    ∀ (n i : Nat) (rows : List GoMap), buildRowsFrom cfg fetch doc i n = some rows →
      ∀ row ∈ rows, noEmptyStrVal row := by
  intro n
  induction n with
  | zero =>
    intro i rows h row hrow
    cases h
    cases hrow
  | succ n ih =>
    intro i rows h row hrow
    unfold buildRowsFrom at h
    cases hr : buildRow cfg fetch doc i with
    | none => rw [hr] at h; cases h
    | some r =>
      rw [hr] at h
      cases hrest : buildRowsFrom cfg fetch doc (i + 1) n with
      | none => rw [hrest] at h; cases h
      | some rs =>
        rw [hrest] at h
        cases h
        rcases List.mem_cons.mp hrow with rfl | hrow'
        · exact buildRow_noEmpty cfg fetch doc i row hr
        · exact ih (i + 1) rs hrest row hrow'

/-! ## Row construction -/

theorem buildRowsFrom_length (cfg : serviceConfig) (fetch : PdfFetch) (doc : solrDocument) :
    ∀ (n i : Nat), (∀ j, j < n → (buildRow cfg fetch doc (i + j)).isSome = true) →
      ∃ rows, buildRowsFrom cfg fetch doc i n = some rows ∧ rows.length = n := by
  intro n
  induction n with
  | zero => intro i _; exact ⟨[], rfl, rfl⟩
  | succ n ih =>
    intro i h
    have h0 : (buildRow cfg fetch doc (i + 0)).isSome = true := h 0 (Nat.succ_pos n)
    rw [Nat.add_zero] at h0
    obtain ⟨r, hr⟩ := Option.isSome_iff_exists.mp h0
    obtain ⟨rs, hrs, hlen⟩ := ih (i + 1) (fun j hj => by
      have hh := h (j + 1) (Nat.succ_lt_succ hj)
      rwa [show i + (j + 1) = i + 1 + j by omega] at hh)
    refine ⟨r :: rs, ?_, by simp [hlen]⟩
    unfold buildRowsFrom
    rw [hr, hrs]

/-! ## The pid type assertion -/

theorem assignCustom_none_of_no_pid (eps : serviceConfigPdfEndpoints) (fetch : PdfFetch)
    (doc : solrDocument) :
    ∀ (l : List serviceConfigField) (part : GoMap),
      "iiif_manifest_url" ∈ l.map serviceConfigField.name →
      (∀ s, mapGet part "pid" ≠ some (.str s)) →
      assignCustom eps fetch doc l part = none := by
  intro l
  induction l with
  | nil => intro part h; cases h
  | cons f rest ih =>
    intro part hmem hpid
    by_cases hn : f.name = "iiif_manifest_url"
    · have hcv : customVal eps fetch doc part f = .fault := by
        rw [customVal_iiif eps fetch doc part f hn]
        cases hp : mapGet part "pid" with
        | none => rfl
        | some v =>
          cases v with
          | str s => exact absurd hp (hpid s)
          | nullVal => rfl
          | obj o => rfl
          | arr a => rfl
      exact assignCustom_cons_fault _ _ _ _ _ _ hcv
    · have hmem' : "iiif_manifest_url" ∈ rest.map serviceConfigField.name := by
        rcases List.mem_cons.mp hmem with h | h
        · exact absurd h.symm hn
        · exact h
      by_cases hpdf : f.name = "pdf"
      · by_cases hurl : firstElementOf (getValuesByTag doc f.field) = ""
        · rw [assignCustom_cons_skip _ _ _ _ _ _
            (by rw [customVal_pdf eps fetch doc part f hpdf, if_pos hurl])]
          exact ih part hmem' hpid
        · have hcv : customVal eps fetch doc part f = .fault := by
            rw [customVal_pdf eps fetch doc part f hpdf, if_neg hurl]
            cases hp : mapGet part "pid" with
            | none => rfl
            | some v =>
              cases v with
              | str s => exact absurd hp (hpid s)
              | nullVal => rfl
              | obj o => rfl
              | arr a => rfl
          exact assignCustom_cons_fault _ _ _ _ _ _ hcv
      · rw [assignCustom_cons_assign _ _ _ _ _ _ _ (customVal_other eps fetch doc part f hn hpdf),
          if_pos (show goValNonEmpty .nilV = true from rfl)]
        refine ih _ hmem' ?_
        intro s
        by_cases hk : f.name = "pid"
        · rw [hk, mapGet_mapSet_self]
          exact fun hc => nomatch Option.some.inj hc
        · rw [mapGet_mapSet_ne part f.name "pid" _ (fun hc => hk hc.symm)]
          exact hpid s

theorem buildRow_none_of_no_pid (cfg : serviceConfig) (fetch : PdfFetch) (doc : solrDocument)
    (i : Nat)
    (hmem : "iiif_manifest_url" ∈ cfg.fields.parts.custom.map serviceConfigField.name)
    (hempty : ∀ f ∈ cfg.fields.parts.indexed, f.name = "pid" →
      (getValuesByTag doc f.field).getD i "" = "") :
    buildRow cfg fetch doc i = none := by
  unfold buildRow
  cases hp : assignIndexed doc i cfg.fields.parts.indexed [] with
  | none => rfl
  | some part =>
    have hnp := assignIndexed_pid_not_str doc i _ [] (fun s h => nomatch h) hempty part hp
    exact assignCustom_none_of_no_pid _ _ _ _ part hmem hnp

/-! ## Pass-2 success -/

theorem assignCustom_isSome_of_pid (eps : serviceConfigPdfEndpoints) (fetch : PdfFetch)
    (doc : solrDocument) :
    ∀ (l : List serviceConfigField) (part : GoMap),
      (∀ f ∈ l, validCustomField f = true) →
      (∃ p, mapGet part "pid" = some (.str p)) →
      (assignCustom eps fetch doc l part).isSome = true := by
  intro l
  induction l with
  | nil => intro part _ _; rfl
  | cons f rest ih =>
    intro part hv hpid
    obtain ⟨p, hp⟩ := hpid
    have hrest : ∀ g ∈ rest, validCustomField g = true :=
      fun g hg => hv g (List.mem_cons_of_mem f hg)
    rcases validCustomField_spec f (hv f (List.mem_cons_self f rest)) with
      ⟨hn, ci, m, hci, hm⟩ | ⟨hn1, hn2⟩
    · have hcv : customVal eps fetch doc part f =
          .assign (.strV (m.urlPrefixVal ++ "/" ++ p)) := by
        simp [customVal_iiif eps fetch doc part f hn, hp, hci, hm]
      rw [assignCustom_cons_assign _ _ _ _ _ _ _ hcv,
        if_pos (show goValNonEmpty (.strV (m.urlPrefixVal ++ "/" ++ p)) = true by
          simp [goValNonEmpty, concatSlash_ne_empty])]
      refine ih _ hrest ⟨p, ?_⟩
      rw [mapGet_mapSet_ne part f.name "pid" _ (by rw [hn]; decide)]
      exact hp
    · by_cases hurl : firstElementOf (getValuesByTag doc f.field) = ""
      · rw [assignCustom_cons_skip _ _ _ _ _ _
          (by rw [customVal_pdf eps fetch doc part f hn2, if_pos hurl])]
        exact ih part hrest ⟨p, hp⟩
      · by_cases hpe : p = ""
        · have hcv : customVal eps fetch doc part f = .skip := by
            simp [customVal_pdf eps fetch doc part f hn2, hurl, hp, hpe]
          rw [assignCustom_cons_skip _ _ _ _ _ _ hcv]
          exact ih part hrest ⟨p, hp⟩
        · have hcv : customVal eps fetch doc part f =
              .assign (.objV (pdfSection eps fetch
                (firstElementOf (getValuesByTag doc f.field)) p)) := by
            simp [customVal_pdf eps fetch doc part f hn2, hurl, hp, hpe]
          rw [assignCustom_cons_assign _ _ _ _ _ _ _ hcv,
            if_pos (show goValNonEmpty (.objV _) = true from rfl)]
          refine ih _ hrest ⟨p, ?_⟩
          rw [mapGet_mapSet_ne part f.name "pid" _ (by rw [hn2]; decide)]
          exact hp

theorem assignCustom_isSome_of_noneed (eps : serviceConfigPdfEndpoints) (fetch : PdfFetch)
    (doc : solrDocument) :
    ∀ (l : List serviceConfigField) (part : GoMap),
      (∀ f ∈ l, validCustomField f = true) →
      (∀ f ∈ l, f.name ≠ "iiif_manifest_url") →
      (∀ f ∈ l, f.name = "pdf" → firstElementOf (getValuesByTag doc f.field) = "") →
      (assignCustom eps fetch doc l part).isSome = true := by
  intro l
  induction l with
  | nil => intro part _ _ _; rfl
  | cons f rest ih =>
    intro part hv hni hurl
    rcases validCustomField_spec f (hv f (List.mem_cons_self f rest)) with ⟨hn, -⟩ | ⟨-, hn2⟩
    · exact absurd hn (hni f (List.mem_cons_self f rest))
    · have hu := hurl f (List.mem_cons_self f rest) hn2
      rw [assignCustom_cons_skip _ _ _ _ _ _
        (by rw [customVal_pdf eps fetch doc part f hn2, if_pos hu])]
      exact ih part (fun g hg => hv g (List.mem_cons_of_mem f hg))
        (fun g hg => hni g (List.mem_cons_of_mem f hg))
        (fun g hg => hurl g (List.mem_cons_of_mem f hg))

/-! ## Independence of the record shape from the PDF client -/

theorem goValNonEmpty_objV (o : GoMap) : goValNonEmpty (.objV o) = true := rfl

theorem exceptPdfAgree_refl (part : GoMap) : exceptPdfAgree part part := fun _ _ => rfl

theorem exceptPdfAgree_mapSet (part part' : GoMap) (k : String) (v v' : JValue)
    (h : exceptPdfAgree part part') (hvv : k ≠ "pdf" → v = v') :
    exceptPdfAgree (mapSet part k v) (mapSet part' k v') := by
  intro k' hk'
  by_cases hkk : k' = k
  · subst hkk
    rw [mapGet_mapSet_self, mapGet_mapSet_self, hvv hk']
  · rw [mapGet_mapSet_ne part k k' v hkk, mapGet_mapSet_ne part' k k' v' hkk]
    exact h k' hk'

theorem assignCustom_indep (eps : serviceConfigPdfEndpoints) (doc : solrDocument)
    (fetch fetch2 : PdfFetch) :
    ∀ (l : List serviceConfigField) (part part' : GoMap), exceptPdfAgree part part' →
      (assignCustom eps fetch doc l part = none ∧ assignCustom eps fetch2 doc l part' = none) ∨
      (∃ q q', assignCustom eps fetch doc l part = some q ∧
        assignCustom eps fetch2 doc l part' = some q' ∧ exceptPdfAgree q q') := by
  intro l
  induction l with
  | nil => intro part part' h; exact Or.inr ⟨part, part', rfl, rfl, h⟩
  | cons f rest ih =>
    intro part part' h
    have hpid : mapGet part "pid" = mapGet part' "pid" := h "pid" (by decide)
    by_cases hpdf : f.name = "pdf"
    · by_cases hurl : firstElementOf (getValuesByTag doc f.field) = ""
      · rw [assignCustom_cons_skip _ _ _ _ _ _
            (by simp [customVal_pdf eps fetch doc part f hpdf, hurl]),
          assignCustom_cons_skip _ _ _ _ _ _
            (by simp [customVal_pdf eps fetch2 doc part' f hpdf, hurl])]
        exact ih part part' h
      · have hpid' : mapGet part' "pid" = mapGet part "pid" := hpid.symm
        cases hp : mapGet part "pid" with
        | none =>
          have hp' : mapGet part' "pid" = none := by rw [hpid']; exact hp
          left
          exact ⟨assignCustom_cons_fault _ _ _ _ _ _
              (by simp [customVal_pdf eps fetch doc part f hpdf, hurl, hp]),
            assignCustom_cons_fault _ _ _ _ _ _
              (by simp [customVal_pdf eps fetch2 doc part' f hpdf, hurl, hp'])⟩
        | some v =>
          have hp' : mapGet part' "pid" = some v := by rw [hpid']; exact hp
          cases v with
          | str s =>
            by_cases hs : s = ""
            · rw [assignCustom_cons_skip _ _ _ _ _ _
                  (by simp [customVal_pdf eps fetch doc part f hpdf, hurl, hp, hs]),
                assignCustom_cons_skip _ _ _ _ _ _
                  (by simp [customVal_pdf eps fetch2 doc part' f hpdf, hurl, hp', hs])]
              exact ih part part' h
            · have hcv1 : customVal eps fetch doc part f = .assign (.objV (pdfSection eps fetch
                  (firstElementOf (getValuesByTag doc f.field)) s)) := by
                simp [customVal_pdf eps fetch doc part f hpdf, hurl, hp, hs]
              have hcv2 : customVal eps fetch2 doc part' f = .assign (.objV (pdfSection eps fetch2
                  (firstElementOf (getValuesByTag doc f.field)) s)) := by
                simp [customVal_pdf eps fetch2 doc part' f hpdf, hurl, hp', hs]
              rw [assignCustom_cons_assign _ _ _ _ _ _ _ hcv1,
                assignCustom_cons_assign _ _ _ _ _ _ _ hcv2,
                if_pos (goValNonEmpty_objV _), if_pos (goValNonEmpty_objV _)]
              exact ih _ _ (exceptPdfAgree_mapSet part part' f.name
                (goVal.toJ (.objV (pdfSection eps fetch
                  (firstElementOf (getValuesByTag doc f.field)) s)))
                (goVal.toJ (.objV (pdfSection eps fetch2
                  (firstElementOf (getValuesByTag doc f.field)) s)))
                h (fun hc => absurd hpdf hc))
          | nullVal =>
            left
            exact ⟨assignCustom_cons_fault _ _ _ _ _ _
                (by simp [customVal_pdf eps fetch doc part f hpdf, hurl, hp]),
              assignCustom_cons_fault _ _ _ _ _ _
                (by simp [customVal_pdf eps fetch2 doc part' f hpdf, hurl, hp'])⟩
          | obj o =>
            left
            exact ⟨assignCustom_cons_fault _ _ _ _ _ _
                (by simp [customVal_pdf eps fetch doc part f hpdf, hurl, hp]),
              assignCustom_cons_fault _ _ _ _ _ _
                (by simp [customVal_pdf eps fetch2 doc part' f hpdf, hurl, hp'])⟩
          | arr a =>
            left
            exact ⟨assignCustom_cons_fault _ _ _ _ _ _
                (by simp [customVal_pdf eps fetch doc part f hpdf, hurl, hp]),
              assignCustom_cons_fault _ _ _ _ _ _
                (by simp [customVal_pdf eps fetch2 doc part' f hpdf, hurl, hp'])⟩
    · have hcveq : customVal eps fetch doc part f = customVal eps fetch2 doc part' f := by
        by_cases hn : f.name = "iiif_manifest_url"
        · rw [customVal_iiif eps fetch doc part f hn, customVal_iiif eps fetch2 doc part' f hn,
            hpid]
        · rw [customVal_other eps fetch doc part f hn hpdf,
            customVal_other eps fetch2 doc part' f hn hpdf]
      cases hcv : customVal eps fetch doc part f with
      | fault =>
        left
        exact ⟨assignCustom_cons_fault _ _ _ _ _ _ hcv,
          assignCustom_cons_fault _ _ _ _ _ _ (hcveq.symm.trans hcv)⟩
      | skip =>
        rw [assignCustom_cons_skip _ _ _ _ _ _ hcv,
          assignCustom_cons_skip _ _ _ _ _ _ (hcveq.symm.trans hcv)]
        exact ih part part' h
      | assign v =>
        rw [assignCustom_cons_assign _ _ _ _ _ _ _ hcv,
          assignCustom_cons_assign _ _ _ _ _ _ _ (hcveq.symm.trans hcv)]
        by_cases hne : goValNonEmpty v = true
        · rw [if_pos hne, if_pos hne]
          exact ih _ _ (exceptPdfAgree_mapSet part part' f.name v.toJ v.toJ h (fun _ => rfl))
        · rw [if_neg hne, if_neg hne]
          exact ih part part' h

theorem buildRow_indep (cfg : serviceConfig) (fetch fetch2 : PdfFetch) (doc : solrDocument)
    (i : Nat) : (buildRow cfg fetch doc i).isSome = (buildRow cfg fetch2 doc i).isSome := by
  unfold buildRow
  cases hp : assignIndexed doc i cfg.fields.parts.indexed [] with
  | none => rfl
  | some part =>
    show (assignCustom cfg.pdf.endpoints fetch doc cfg.fields.parts.custom part).isSome =
      (assignCustom cfg.pdf.endpoints fetch2 doc cfg.fields.parts.custom part).isSome
    rcases assignCustom_indep cfg.pdf.endpoints doc fetch fetch2 cfg.fields.parts.custom
        part part (exceptPdfAgree_refl part) with ⟨h1, h2⟩ | ⟨q, q', h1, h2, -⟩
    · rw [h1, h2]
    · rw [h1, h2]
      rfl

theorem buildRowsFrom_indep (cfg : serviceConfig) (fetch fetch2 : PdfFetch)
    (doc : solrDocument) :
    ∀ (n i : Nat), Option.map List.length (buildRowsFrom cfg fetch doc i n) =
      Option.map List.length (buildRowsFrom cfg fetch2 doc i n) := by
  intro n
  induction n with
  | zero => intro i; rfl
  | succ n ih =>
    intro i
    have hb := buildRow_indep cfg fetch fetch2 doc i
    unfold buildRowsFrom
    cases hr : buildRow cfg fetch doc i with
    | none =>
      cases hr2 : buildRow cfg fetch2 doc i with
      | none => rfl
      | some r2 => rw [hr, hr2] at hb; cases hb
    | some r =>
      cases hr2 : buildRow cfg fetch2 doc i with
      | none => rw [hr, hr2] at hb; cases hb
      | some r2 =>
        have ihn := ih (i + 1)
        cases hrest : buildRowsFrom cfg fetch doc (i + 1) n with
        | none =>
          cases hrest2 : buildRowsFrom cfg fetch2 doc (i + 1) n with
          | none => rfl
          | some l2 => rw [hrest, hrest2] at ihn; simp at ihn
        | some l1 =>
          cases hrest2 : buildRowsFrom cfg fetch2 doc (i + 1) n with
          | none => rw [hrest, hrest2] at ihn; simp at ihn
          | some l2 =>
            rw [hrest, hrest2] at ihn
            have hll : l1.length = l2.length := by simpa using ihn
            simp [hll]

theorem handleItemRequest_success_cons (cfg : serviceConfig) (fetch : PdfFetch)
    (doc : solrDocument) (ds : List solrDocument) :
    handleItemRequest cfg fetch (.success (doc :: ds)) =
      (if (validateFields cfg.fields.parts.indexed doc).2 ≠ [] then
        some ⟨500, none, some "digital content field inconsistencies"⟩
      else if (validateFields cfg.fields.parts.indexed doc).1 = 0 then
        some ⟨500, none, some "no digital parts found in this record"⟩
      else
        match buildParts cfg fetch doc (validateFields cfg.fields.parts.indexed doc).1.toNat with
        | none => none
        | some parts =>
          some ⟨200, some (.obj (mapSet (assignItem doc cfg.fields.item [])
            "parts" (.arr (parts.map .obj)))), none⟩) := rfl

theorem handleItemRequest_status_indep (cfg : serviceConfig) (fetch fetch2 : PdfFetch)
    (solr : solrQueryResult) :
    Option.map searchResponse.status (handleItemRequest cfg fetch solr) =
    Option.map searchResponse.status (handleItemRequest cfg fetch2 solr) := by
  cases solr with
  | failure msg => rfl
  | success docs =>
    cases docs with
    | nil => rfl
    | cons doc ds =>
      rw [handleItemRequest_success_cons cfg fetch doc ds,
        handleItemRequest_success_cons cfg fetch2 doc ds]
      by_cases hviol : (validateFields cfg.fields.parts.indexed doc).2 ≠ []
      · rw [if_pos hviol, if_pos hviol]
      · rw [if_neg hviol, if_neg hviol]
        by_cases hz : (validateFields cfg.fields.parts.indexed doc).1 = 0
        · rw [if_pos hz, if_pos hz]
        · rw [if_neg hz, if_neg hz]
          have hind := buildRowsFrom_indep cfg fetch fetch2 doc
            (validateFields cfg.fields.parts.indexed doc).1.toNat 0
          unfold buildParts
          cases h1 : buildRowsFrom cfg fetch doc 0
              (validateFields cfg.fields.parts.indexed doc).1.toNat with
          | none =>
            cases h2 : buildRowsFrom cfg fetch2 doc 0
                (validateFields cfg.fields.parts.indexed doc).1.toNat with
            | none => rfl
            | some l2 => rw [h1, h2] at hind; simp at hind
          | some l1 =>
            cases h2 : buildRowsFrom cfg fetch2 doc 0
                (validateFields cfg.fields.parts.indexed doc).1.toNat with
            | none => rw [h1, h2] at hind; simp at hind
            | some l2 => rfl

/-! ## Sorted key order of the JSON encoder -/

theorem charListLe_total : ∀ a b : List Char, charListLe a b = true ∨ charListLe b a = true := by
  intro a
  induction a with
  | nil => intro b; exact Or.inl rfl
  | cons x as ih =>
    intro b
    cases b with
    | nil => exact Or.inr rfl
    | cons y bs =>
      rcases lt_trichotomy x y with hxy | rfl | hxy
      · left
        simp [charListLe, hxy]
      · have hmain := ih bs
        simpa [charListLe, lt_irrefl] using hmain
      · right
        simp [charListLe, hxy]

theorem charListLe_trans : ∀ a b c : List Char,
    charListLe a b = true → charListLe b c = true → charListLe a c = true := by
  intro a
  induction a with
  | nil => intro b c _ _; rfl
  | cons x as ih =>
    intro b c hab hbc
    cases b with
    | nil => simp [charListLe] at hab
    | cons y bs =>
      cases c with
      | nil => simp [charListLe] at hbc
      | cons z cs =>
        unfold charListLe at hab hbc ⊢
        by_cases hxy : x < y
        · rw [if_pos hxy] at hab
          by_cases hyz : y < z
          · rw [if_pos (lt_trans hxy hyz)]
          · rw [if_neg hyz] at hbc
            by_cases hzy : z < y
            · rw [if_pos hzy] at hbc; cases hbc
            · have hyz' : y = z := le_antisymm (not_lt.mp hzy) (not_lt.mp hyz)
              rw [if_pos (hyz' ▸ hxy)]
        · rw [if_neg hxy] at hab
          by_cases hyx : y < x
          · rw [if_pos hyx] at hab; cases hab
          · rw [if_neg hyx] at hab
            have hxy' : x = y := le_antisymm (not_lt.mp hyx) (not_lt.mp hxy)
            subst hxy'
            by_cases hxz : x < z
            · rw [if_pos hxz]
            · rw [if_neg hxz] at hbc ⊢
              by_cases hzx : z < x
              · rw [if_pos hzx] at hbc; cases hbc
              · rw [if_neg hzx] at hbc ⊢
                exact ih bs cs hab hbc

theorem strLe_total (a b : String) : strLe a b = true ∨ strLe b a = true :=
  charListLe_total a.data b.data

theorem strLe_trans (a b c : String) (h1 : strLe a b = true) (h2 : strLe b c = true) :
    strLe a c = true :=
  charListLe_trans a.data b.data c.data h1 h2

theorem insertPair_perm (p : String × JValue) :
    ∀ l : GoMap, (insertPair p l).Perm (p :: l) := by
  intro l
  induction l with
  | nil => exact List.Perm.refl _
  | cons q rest ih =>
    unfold insertPair
    by_cases h : strLe p.1 q.1 = true
    · rw [if_pos h]
    · rw [if_neg h]
      exact (ih.cons q).trans (List.Perm.swap p q rest)

theorem sortPairs_perm : ∀ l : GoMap, (sortPairs l).Perm l := by
  intro l
  induction l with
  | nil => exact List.Perm.refl _
  | cons p rest ih =>
    unfold sortPairs
    exact (insertPair_perm p (sortPairs rest)).trans (ih.cons p)

theorem insertPair_sorted (p : String × JValue) :
    ∀ l : GoMap, l.Pairwise (fun a b => strLe a.1 b.1 = true) →
      (insertPair p l).Pairwise (fun a b => strLe a.1 b.1 = true) := by
  intro l
  induction l with
  | nil => intro _; exact List.pairwise_singleton _ _
  | cons q rest ih =>
    intro h
    unfold insertPair
    by_cases hle : strLe p.1 q.1 = true
    · rw [if_pos hle]
      refine List.Pairwise.cons ?_ h
      intro a ha
      rcases List.mem_cons.mp ha with rfl | ha'
      · exact hle
      · exact strLe_trans p.1 q.1 a.1 hle ((List.pairwise_cons.mp h).1 a ha')
    · rw [if_neg hle]
      have hqp : strLe q.1 p.1 = true := (strLe_total p.1 q.1).resolve_left hle
      rcases List.pairwise_cons.mp h with ⟨hq, hrest⟩
      refine List.Pairwise.cons ?_ (ih hrest)
      intro a ha
      rcases List.mem_cons.mp ((insertPair_perm p rest).mem_iff.mp ha) with rfl | ha'
      · exact hqp
      · exact hq a ha'

theorem sortPairs_sorted : ∀ l : GoMap,
    (sortPairs l).Pairwise (fun a b => strLe a.1 b.1 = true) := by
  intro l
  induction l with
  | nil => exact List.Pairwise.nil
  | cons p rest ih => exact insertPair_sorted p (sortPairs rest) ih

theorem jsonKeyOrder_sorted (m : GoMap) :
    (jsonKeyOrder m).Pairwise (fun a b => strLe a b = true) := by
  unfold jsonKeyOrder
  exact List.pairwise_map.mpr (sortPairs_sorted m)

theorem jsonKeyOrder_perm (m : GoMap) : (jsonKeyOrder m).Perm (m.map Prod.fst) := by
  unfold jsonKeyOrder
  exact (sortPairs_perm m).map Prod.fst

/-! ## Claim theorems -/

/-- Claim C8: for every request whose index lookup returns zero documents,
`handleItemRequest` fails with "record not found" before any projection or
assembly occurs (the outcome does not depend on the configuration or the
PDF client), and the failure carries HTTP status 500. -/
theorem claim_C8_record_not_found (cfg : serviceConfig) (fetch : PdfFetch) :
    handleItemRequest cfg fetch (.success []) =
      some ⟨500, none, some "record not found"⟩ := rfl

/-- Claim C5: for every document that passes structural validation with a
resolved cardinality of zero (which requires at least one indexed field to
have set it), the handler fails with the explicit empty-record condition
"no digital parts found in this record" and status 500, never an
empty-but-valid result. -/
theorem claim_C5_empty_record (cfg : serviceConfig) (fetch : PdfFetch)
    (doc : solrDocument) (ds : List solrDocument)
    (h : validateFields cfg.fields.parts.indexed doc = (0, [])) :
    handleItemRequest cfg fetch (.success (doc :: ds)) =
      some ⟨500, none, some "no digital parts found in this record"⟩ := by
  simp [handleItemRequest_success_cons, h]

theorem claim_C5_witness :
    validateFields cfgZeroParts.fields.parts.indexed docNoParts = (0, []) ∧
    handleItemRequest cfgZeroParts failFetch (.success [docNoParts]) =
      some ⟨500, none, some "no digital parts found in this record"⟩ :=
  ⟨by decide, claim_C5_empty_record cfgZeroParts failFetch docNoParts [] (by decide)⟩

/-- Claim C2: for every document in which two indexed (array-valued) part
fields have differing lengths, validation records a violation (the
violation list is nonempty) and the request fails with the structural
error "digital content field inconsistencies" and status 500; moreover the
scan visits all configured fields, so the emitted violation list contains
an entry for every missing required field and for every field whose length
differs from the established cardinality, not just the first. -/
theorem claim_C2_structural_violations (cfg : serviceConfig) (fetch : PdfFetch)
    (doc : solrDocument) (ds : List solrDocument) (f g : serviceConfigField)
    (hf : f ∈ cfg.fields.parts.indexed) (hg : g ∈ cfg.fields.parts.indexed)
    (hne : (getValuesByTag doc f.field).length ≠ (getValuesByTag doc g.field).length) :
    (validateFields cfg.fields.parts.indexed doc).2 ≠ [] ∧
    handleItemRequest cfg fetch (.success (doc :: ds)) =
      some ⟨500, none, some "digital content field inconsistencies"⟩ ∧
    (∀ f' ∈ cfg.fields.parts.indexed, f'.required = true →
      (getValuesByTag doc f'.field).length = 0 →
      missingMsg f'.field ∈ (validateFields cfg.fields.parts.indexed doc).2) ∧
    (∀ f' ∈ cfg.fields.parts.indexed,
      ¬(f'.required = true ∧ (getValuesByTag doc f'.field).length = 0) →
      ((getValuesByTag doc f'.field).length : Int) ≠
        (validateFields cfg.fields.parts.indexed doc).1 →
      mismatchMsg f'.field ∈ (validateFields cfg.fields.parts.indexed doc).2) := by
  have hviol := validateFields_two_lengths_ne doc _ f g hf hg hne
  refine ⟨hviol, ?_, ?_, ?_⟩
  · rw [handleItemRequest_success_cons, if_pos hviol]
  · intro f' hf' hreq hlen
    exact validateLoop_missing_mem doc _ (-1) [] f' hf' hreq hlen
  · intro f' hf' hnm hne'
    exact validateLoop_mismatch_mem doc _ (-1) [] f' hf' hnm hne'

theorem claim_C2_witness :
    validateFields cfgMismatch.fields.parts.indexed docMismatch =
      (2, [mismatchMsg "thumbnail_url_a", missingMsg "alternate_id_a"]) ∧
    ((validateFields cfgMismatch.fields.parts.indexed docMismatch).2 ≠ [] ∧
     handleItemRequest cfgMismatch failFetch (.success [docMismatch]) =
       some ⟨500, none, some "digital content field inconsistencies"⟩ ∧
     (∀ f' ∈ cfgMismatch.fields.parts.indexed, f'.required = true →
       (getValuesByTag docMismatch f'.field).length = 0 →
       missingMsg f'.field ∈ (validateFields cfgMismatch.fields.parts.indexed docMismatch).2) ∧
     (∀ f' ∈ cfgMismatch.fields.parts.indexed,
       ¬(f'.required = true ∧ (getValuesByTag docMismatch f'.field).length = 0) →
       ((getValuesByTag docMismatch f'.field).length : Int) ≠
         (validateFields cfgMismatch.fields.parts.indexed docMismatch).1 →
       mismatchMsg f'.field ∈ (validateFields cfgMismatch.fields.parts.indexed docMismatch).2)) :=
  ⟨by decide,
    claim_C2_structural_violations cfgMismatch failFetch docMismatch []
      { name := "title", field := "individual_call_number_a", required := true }
      { name := "thumb", field := "thumbnail_url_a" }
      (by decide) (by decide) (by decide)⟩

/-- Claim C9: if structural validation completes with no violation and a
positive cardinality N, then every indexed part field holds exactly N
values, every index access `fieldValues[i]` for `i < N` is in bounds, and
the pass-1 assembly loop over the indexed fields never faults. -/
theorem claim_C9_inbounds (cfg : serviceConfig) (doc : solrDocument) (N : Nat)
    (h : validateFields cfg.fields.parts.indexed doc = ((N : Int), []))
    (hN : 0 < N) :
    (∀ f ∈ cfg.fields.parts.indexed, (getValuesByTag doc f.field).length = N) ∧
    (∀ i, i < N → ∀ f ∈ cfg.fields.parts.indexed,
      ((getValuesByTag doc f.field).get? i).isSome = true) ∧
    (∀ i, i < N → (assignIndexed doc i cfg.fields.parts.indexed []).isSome = true) := by
  have hsame : (validateLoop doc cfg.fields.parts.indexed (-1) []).2 = [] := by
    rw [show validateLoop doc cfg.fields.parts.indexed (-1) [] =
      validateFields cfg.fields.parts.indexed doc from rfl, h]
  have hfst : (validateLoop doc cfg.fields.parts.indexed (-1) []).1 = (N : Int) := by
    rw [show validateLoop doc cfg.fields.parts.indexed (-1) [] =
      validateFields cfg.fields.parts.indexed doc from rfl, h]
  have hclean := validateLoop_clean doc cfg.fields.parts.indexed (-1) [] hsame
  have hlen : ∀ f ∈ cfg.fields.parts.indexed, (getValuesByTag doc f.field).length = N := by
    intro f hf
    have hh := (hclean f hf).2
    rw [hfst] at hh
    exact_mod_cast hh
  refine ⟨hlen, ?_, ?_⟩
  · intro i hi f hf
    have hib : i < (getValuesByTag doc f.field).length := by rw [hlen f hf]; exact hi
    rw [List.get?_eq_get hib]
    rfl
  · intro i hi
    exact assignIndexed_isSome doc i _ [] (fun f hf => by rw [hlen f hf]; exact hi)

theorem claim_C9_witness :
    validateFields cfgFull.fields.parts.indexed docTwoParts = (((2 : Nat) : Int), []) ∧
    ((∀ f ∈ cfgFull.fields.parts.indexed, (getValuesByTag docTwoParts f.field).length = 2) ∧
     (∀ i, i < 2 → ∀ f ∈ cfgFull.fields.parts.indexed,
       ((getValuesByTag docTwoParts f.field).get? i).isSome = true) ∧
     (∀ i, i < 2 → (assignIndexed docTwoParts i cfgFull.fields.parts.indexed []).isSome = true)) :=
  ⟨by decide, claim_C9_inbounds cfgFull docTwoParts 2 (by decide) (by decide)⟩

/-- Claim C6: in every successfully assembled record no output mapping —
neither a part row nor the item-level mapping — holds the empty string
under any key: a field whose projected value is empty is omitted entirely,
never emitted with an empty value. -/
theorem claim_C6_no_empty_values (cfg : serviceConfig) (fetch : PdfFetch)
    (doc : solrDocument) (n : Nat) (parts : List GoMap)
    (h : buildParts cfg fetch doc n = some parts) :
    (∀ row ∈ parts, ∀ k v, mapGet row k = some v → v ≠ .str "") ∧
    (∀ k v, mapGet (assignItem doc cfg.fields.item []) k = some v → v ≠ .str "") := by
  constructor
  · intro row hrow k v hkv
    exact buildRowsFrom_noEmpty cfg fetch doc n 0 parts h row hrow k v hkv
  · intro k v hkv
    exact assignItem_noEmpty doc cfg.fields.item [] noEmptyStrVal_nil k v hkv

theorem claim_C6_witness :
    buildParts cfgEmptyVals failFetch docEmptyVals 1 = some [[("pid", JValue.str "p1")]] ∧
    ((∀ row ∈ [[("pid", JValue.str "p1")]], ∀ k v, mapGet row k = some v → v ≠ .str "") ∧
     (∀ k v, mapGet (assignItem docEmptyVals cfgEmptyVals.fields.item []) k = some v →
       v ≠ .str "")) :=
  ⟨rfl, claim_C6_no_empty_values cfgEmptyVals failFetch docEmptyVals 1
    [[("pid", JValue.str "p1")]] rfl⟩

/-- Claim C10: the custom pass's `iiif_manifest_url` derivation reads the
row's already-assigned `pid` entry through an unchecked string type
assertion.  If every indexed field named `pid` projects the empty string
at index `i` (so the key was omitted by the empty-value rule), the row's
assembly faults (Go panic, modelled as `none`) instead of skipping the
custom field; and whenever the pid entry is not a string, the derivation
step is a fault. -/
theorem claim_C10_pid_assertion_fault (cfg : serviceConfig) (fetch : PdfFetch)
    (doc : solrDocument) (i : Nat)
    (hmem : "iiif_manifest_url" ∈ cfg.fields.parts.custom.map serviceConfigField.name)
    (hempty : ∀ f ∈ cfg.fields.parts.indexed, f.name = "pid" →
      (getValuesByTag doc f.field).getD i "" = "") :
    buildRow cfg fetch doc i = none ∧
    (∀ part, (∀ s, mapGet part "pid" ≠ some (.str s)) →
      ∀ f ∈ cfg.fields.parts.custom, f.name = "iiif_manifest_url" →
        customVal cfg.pdf.endpoints fetch doc part f = .fault) := by
  constructor
  · exact buildRow_none_of_no_pid cfg fetch doc i hmem hempty
  · intro part hpid f _ hn
    rw [customVal_iiif _ _ _ _ _ hn]
    cases hp : mapGet part "pid" with
    | none => rfl
    | some v =>
      cases v with
      | str w => exact absurd hp (hpid w)
      | nullVal => rfl
      | obj o => rfl
      | arr a => rfl

theorem claim_C10_witness :
    ("iiif_manifest_url" ∈ cfgIiifEmptyPid.fields.parts.custom.map serviceConfigField.name) ∧
    (∀ f ∈ cfgIiifEmptyPid.fields.parts.indexed, f.name = "pid" →
      (getValuesByTag docPidEmpty f.field).getD 0 "" = "") ∧
    buildRow cfgIiifEmptyPid failFetch docPidEmpty 0 = none :=
  ⟨by decide, by decide,
    (claim_C10_pid_assertion_fault cfgIiifEmptyPid failFetch docPidEmpty 0
      (by decide) (by decide)).1⟩

/-- Claim C4: when the PDF status exchange for a row fails (transport
failure, non-200 status, or body read failure) with a non-empty base URL
and identifier, the row's pdf sub-object carries the empty string as its
status, every other key of the pdf sub-object is the same as with any
other client, and the overall request outcome (panic-or-not and HTTP
status) does not depend on the PDF client at all — PDF failure is never
fatal to the record. -/
theorem claim_C4_pdf_failure_degrades (eps : serviceConfigPdfEndpoints) (fetch : PdfFetch)
    (pdfURL pid : String) (h1 : pdfURL ≠ "") (h2 : pid ≠ "")
    (h3 : pdfOutcomeFails (fetch (pdfEndpointURL pdfURL pid eps.status))) :
    mapGet (pdfSection eps fetch pdfURL pid) "status" = some (.str "") ∧
    (∀ fetch2 k, k ≠ "status" →
      mapGet (pdfSection eps fetch pdfURL pid) k =
      mapGet (pdfSection eps fetch2 pdfURL pid) k) ∧
    (∀ (cfg : serviceConfig) (solr : solrQueryResult) (fetch2 : PdfFetch),
      Option.map searchResponse.status (handleItemRequest cfg fetch solr) =
      Option.map searchResponse.status (handleItemRequest cfg fetch2 solr)) := by
  have hfail : (match getPdfStatus fetch eps pdfURL pid with
      | .ok st => st
      | .error _ => "") = "" := by
    unfold getPdfStatus
    rw [if_neg (by push_neg; exact ⟨h1, h2⟩)]
    cases hf : fetch (pdfEndpointURL pdfURL pid eps.status) with
    | netFailure m => rfl
    | httpResponse code body =>
      have h3' : code ≠ 200 ∨ body = none := by rw [hf] at h3; exact h3
      by_cases hc : code ≠ 200
      · simp [hc]
      · rcases h3' with h3' | h3'
        · exact absurd h3' hc
        · subst h3'
          have hcc : code = 200 := not_ne_iff.mp hc
          simp [hcc]
  refine ⟨?_, ?_, fun cfg solr fetch2 => handleItemRequest_status_indep cfg fetch fetch2 solr⟩
  · have e1 : mapGet (pdfSection eps fetch pdfURL pid) "status" =
        some (.str (match getPdfStatus fetch eps pdfURL pid with
          | .ok st => st
          | .error _ => "")) := by
      simp only [pdfSection]
      rw [mapGet_mapSet_ne _ "urls" "status" _ (by decide), mapGet_mapSet_self]
    rw [e1, hfail]
  · intro fetch2 k hk
    simp only [pdfSection]
    by_cases hu : k = "urls"
    · subst hu
      rw [mapGet_mapSet_self, mapGet_mapSet_self]
    · rw [mapGet_mapSet_ne _ "urls" k _ hu, mapGet_mapSet_ne _ "urls" k _ hu,
        mapGet_mapSet_ne _ "status" k _ hk, mapGet_mapSet_ne _ "status" k _ hk]

theorem claim_C4_witness :
    ("http://pdf.example" : String) ≠ "" ∧ ("p1" : String) ≠ "" ∧
    pdfOutcomeFails (failFetch
      (pdfEndpointURL "http://pdf.example" "p1" cfgFull.pdf.endpoints.status)) ∧
    (mapGet (pdfSection cfgFull.pdf.endpoints failFetch "http://pdf.example" "p1") "status" =
      some (.str "") ∧
    (∀ fetch2 k, k ≠ "status" →
      mapGet (pdfSection cfgFull.pdf.endpoints failFetch "http://pdf.example" "p1") k =
      mapGet (pdfSection cfgFull.pdf.endpoints fetch2 "http://pdf.example" "p1") k) ∧
    (∀ (cfg : serviceConfig) (solr : solrQueryResult) (fetch2 : PdfFetch),
      Option.map searchResponse.status (handleItemRequest cfg failFetch solr) =
      Option.map searchResponse.status (handleItemRequest cfg fetch2 solr))) :=
  ⟨by decide, by decide, True.intro,
    claim_C4_pdf_failure_degrades cfgFull.pdf.endpoints failFetch "http://pdf.example" "p1"
      (by decide) (by decide) True.intro⟩

/-- Claim C1 counterexample: a configuration and document satisfying the
claim's hypotheses — every indexed part field has the same length 1 ≥ 1
and every required field is present — on which the pipeline does not
succeed: the `iiif_manifest_url` custom field dereferences the absent
`pid` entry and the handler faults (`none`) instead of returning a record
with one row. -/
theorem claim_C1_counterexample :
    (∀ f ∈ cfgNoPid.fields.parts.indexed, (getValuesByTag docOnePart f.field).length = 1) ∧
    (∀ f ∈ cfgNoPid.fields.parts.indexed, f.required = true →
      getValuesByTag docOnePart f.field ≠ []) ∧
    handleItemRequest cfgNoPid failFetch (.success [docOnePart]) = none :=
  ⟨by decide, by decide, rfl⟩

/-- Claim C1 (amended): for every configuration whose custom part fields
are only the startup-validated shapes (`iiif_manifest_url` with its
custom-info section, or `pdf`) and every document where the indexed part
fields are non-empty and all have length N ≥ 1 with required fields
present, and where additionally each row carries a string `pid` entry
whenever some custom field dereferences it (always for
`iiif_manifest_url`; for `pdf` when the document's pdf url value is
non-empty), the pipeline succeeds and the assembled `parts` sequence has
exactly N entries. -/
theorem claim_C1_amended_rows (cfg : serviceConfig) (fetch : PdfFetch) (doc : solrDocument)
    (ds : List solrDocument) (N : Nat)
    (hne : cfg.fields.parts.indexed ≠ [])
    (hlen : ∀ f ∈ cfg.fields.parts.indexed, (getValuesByTag doc f.field).length = N)
    (hN : 1 ≤ N)
    (hreq : ∀ f ∈ cfg.fields.parts.indexed, f.required = true →
      getValuesByTag doc f.field ≠ [])
    (hvalid : ∀ f ∈ cfg.fields.parts.custom, validCustomField f = true)
    (hpid : rowNeedsPid cfg.fields.parts.custom doc →
      ∀ i, i < N → ∀ part, assignIndexed doc i cfg.fields.parts.indexed [] = some part →
        ∃ p, mapGet part "pid" = some (JValue.str p)) :
    ∃ parts, buildParts cfg fetch doc N = some parts ∧ parts.length = N ∧
      handleItemRequest cfg fetch (.success (doc :: ds)) =
        some ⟨200, some (.obj (mapSet (assignItem doc cfg.fields.item [])
          "parts" (.arr (parts.map .obj)))), none⟩ := by
  have hval : validateFields cfg.fields.parts.indexed doc = ((N : Int), []) := by
    cases hidx : cfg.fields.parts.indexed with
    | nil => exact absurd hidx hne
    | cons f0 rest =>
      exact validateFields_uniform doc N (by omega) f0 rest (by rw [← hidx]; exact hlen)
  have hrow : ∀ i, i < N → (buildRow cfg fetch doc i).isSome = true := by
    intro i hi
    have hpass1 : (assignIndexed doc i cfg.fields.parts.indexed []).isSome = true :=
      assignIndexed_isSome doc i _ [] (fun f hf => by rw [hlen f hf]; exact hi)
    obtain ⟨part, hpart⟩ := Option.isSome_iff_exists.mp hpass1
    unfold buildRow
    rw [hpart]
    show (assignCustom cfg.pdf.endpoints fetch doc cfg.fields.parts.custom part).isSome = true
    by_cases hneed : rowNeedsPid cfg.fields.parts.custom doc
    · exact assignCustom_isSome_of_pid _ _ _ _ part hvalid (hpid hneed i hi part hpart)
    · unfold rowNeedsPid at hneed
      push_neg at hneed
      exact assignCustom_isSome_of_noneed _ _ _ _ part hvalid
        (fun g hg => hneed.1 g hg) (fun g hg hgp => hneed.2 g hg hgp)
  obtain ⟨parts, hparts, hplen⟩ := buildRowsFrom_length cfg fetch doc N 0
    (fun j hj => by
      have hh := hrow j hj
      rwa [show j = 0 + j by omega] at hh)
  refine ⟨parts, hparts, hplen, ?_⟩
  rw [handleItemRequest_success_cons, hval]
  rw [if_neg (show ¬(((N : Int), ([] : List String)).2 ≠ []) by simp),
    if_neg (show ¬(((N : Int), ([] : List String)).1 = 0) by simp; omega)]
  have h4 : (((N : Int), ([] : List String)).1).toNat = N := by simp
  rw [h4]
  have hbp : buildParts cfg fetch doc N = some parts := hparts
  rw [hbp]

theorem claim_C1_witness :
    cfgFull.fields.parts.indexed ≠ [] ∧
    (∀ f ∈ cfgFull.fields.parts.indexed, (getValuesByTag docTwoParts f.field).length = 2) ∧
    (∀ f ∈ cfgFull.fields.parts.custom, validCustomField f = true) ∧
    (∃ parts, buildParts cfgFull (okFetch "READY") docTwoParts 2 = some parts ∧
      parts.length = 2 ∧
      handleItemRequest cfgFull (okFetch "READY") (.success [docTwoParts]) =
        some ⟨200, some (.obj (mapSet (assignItem docTwoParts cfgFull.fields.item [])
          "parts" (.arr (parts.map .obj)))), none⟩) := by
  refine ⟨by decide, by decide, by decide, ?_⟩
  refine claim_C1_amended_rows cfgFull (okFetch "READY") docTwoParts [] 2
    (by decide) (by decide) (by decide) (by decide) (by decide) ?_
  intro _ i hi part hpart
  interval_cases i
  · exact ⟨"p1", by rw [← Option.some.inj hpart]; rfl⟩
  · exact ⟨"p2", by rw [← Option.some.inj hpart]; rfl⟩

/-- Claim C3 counterexample: a successful request whose configuration
declares `thumbnail_url` before `pid`; the serialized key order of the
assembled row is the sorted order `pid`, `thumbnail_url` — the JSON
encoder sorts Go map keys — which differs from the configuration
declaration order. -/
theorem claim_C3_counterexample :
    cfgOrder.fields.parts.indexed.map serviceConfigField.name = ["thumbnail_url", "pid"] ∧
    (respParts (handleItemRequest cfgOrder failFetch (.success [docOrder]))).map jsonKeyOrder
      = [["pid", "thumbnail_url"]] ∧
    (["pid", "thumbnail_url"] : List String) ≠ ["thumbnail_url", "pid"] :=
  ⟨rfl, by decide, by decide⟩

/-- Claim C3 (amended): the pipeline is a pure function of the
configuration, the document, and the client's responses, so repeated
invocation on unchanged inputs yields identical output; and in each
serialized output row the field names appear in sorted (byte-wise
lexicographic) order — the JSON encoder sorts Go map keys — as a
permutation of the row's assigned names, rather than in configuration
declaration order. -/
theorem claim_C3_amended_key_order (cfg : serviceConfig) (fetch : PdfFetch)
    (solr : solrQueryResult) :
    handleItemRequest cfg fetch solr = handleItemRequest cfg fetch solr ∧
    ∀ row ∈ respParts (handleItemRequest cfg fetch solr),
      (jsonKeyOrder row).Pairwise (fun a b => strLe a b = true) ∧
      (jsonKeyOrder row).Perm (row.map Prod.fst) :=
  ⟨rfl, fun row _ => ⟨jsonKeyOrder_sorted row, jsonKeyOrder_perm row⟩⟩

theorem claim_C3_witness :
    (respParts (handleItemRequest cfgOrder (okFetch "READY") (.success [docOrder]))).map
      jsonKeyOrder = [["pid", "thumbnail_url"]] ∧
    (∀ row ∈ respParts (handleItemRequest cfgOrder (okFetch "READY") (.success [docOrder])),
      (jsonKeyOrder row).Pairwise (fun a b => strLe a b = true) ∧
      (jsonKeyOrder row).Perm (row.map Prod.fst)) :=
  ⟨by decide,
    (claim_C3_amended_key_order cfgOrder (okFetch "READY") (.success [docOrder])).2⟩

/-- Claim C7 counterexample: a row whose pdf base URL is non-empty but
whose identifier is absent (no field named `pid` is configured, so the
row carries no identifier): instead of skipping the custom section
silently with no error, the handler faults — the `pid` type assertion
panics (modelled as `none`). -/
theorem claim_C7_counterexample :
    firstElementOf (getValuesByTag docPdfOnly "pdf_url_a") = "http://pdf.example" ∧
    (∀ f ∈ cfgPdfOnly.fields.parts.indexed, f.name ≠ "pid") ∧
    handleItemRequest cfgPdfOnly failFetch (.success [docPdfOnly]) = none :=
  ⟨rfl, by decide, rfl⟩

/-- Claim C7 (amended): when the `pdf` custom field's base URL (the first
element of the row's raw value) is empty, the custom section is skipped
silently for that row: the loop iteration is a `continue` that assigns
nothing and raises no error, and with the `pdf` field alone the row keeps
no `pdf` key.  (With a non-empty base URL and a missing identifier the
assembly instead faults — see C10.) -/
theorem claim_C7_amended_skip (eps : serviceConfigPdfEndpoints) (fetch : PdfFetch)
    (doc : solrDocument) (part : GoMap) (f : serviceConfigField)
    (rest : List serviceConfigField)
    (hn : f.name = "pdf")
    (hurl : firstElementOf (getValuesByTag doc f.field) = "") :
    customVal eps fetch doc part f = .skip ∧
    assignCustom eps fetch doc (f :: rest) part = assignCustom eps fetch doc rest part ∧
    (mapGet part "pdf" = none →
      ∀ q, assignCustom eps fetch doc [f] part = some q → mapGet q "pdf" = none) := by
  have hcv : customVal eps fetch doc part f = .skip := by
    simp [customVal_pdf eps fetch doc part f hn, hurl]
  refine ⟨hcv, assignCustom_cons_skip _ _ _ _ _ _ hcv, ?_⟩
  intro hnone q hq
  rw [assignCustom_cons_skip _ _ _ _ _ _ hcv] at hq
  cases hq
  exact hnone

theorem claim_C7_witness :
    pdfField.name = "pdf" ∧
    firstElementOf (getValuesByTag docNoPdfUrl pdfField.field) = "" ∧
    (customVal cfgFull.pdf.endpoints failFetch docNoPdfUrl [("title", JValue.str "T")]
        pdfField = .skip ∧
      assignCustom cfgFull.pdf.endpoints failFetch docNoPdfUrl [pdfField]
          [("title", JValue.str "T")] =
        assignCustom cfgFull.pdf.endpoints failFetch docNoPdfUrl []
          [("title", JValue.str "T")] ∧
      (mapGet [("title", JValue.str "T")] "pdf" = none →
        ∀ q, assignCustom cfgFull.pdf.endpoints failFetch docNoPdfUrl [pdfField]
            [("title", JValue.str "T")] = some q → mapGet q "pdf" = none)) :=
  ⟨rfl, rfl,
    claim_C7_amended_skip cfgFull.pdf.endpoints failFetch docNoPdfUrl
      [("title", JValue.str "T")] pdfField [] rfl rfl⟩

end Virgo4DigitalContent
